import Mathlib

/-!
Shallow embedding of `src/plugin.py` (the `repeat_plugin` repository):
a chat-bot plugin that watches group messages, detects three consecutive
identical texts per group, and probabilistically echoes the repeated text.

The embedding models:
* the message field extraction helpers `_first_text` / `_dig` (the `_dig`
  probes are flattened into optional fields of `MaiMessages`, one field per
  probed attribute path);
* the notice-event regex filter and the `[CQ:` media prefix filter;
* the mention-markup rewrite `re.sub(r'@<([^:]+?):\d+>', r'@\1', ...)`;
* Python `int(...)` parsing of the group id (which can raise `ValueError`);
* the `deque(maxlen=3)` per-group history;
* the handler `RepeatHandler.execute` as a function of the configuration,
  the handler state, the incoming message and the values returned by the
  (at most two) `random.random()` calls of that invocation;
* multi-message runs of the handler.

Probabilities and random draws are modelled as rationals; `random.random()`
returns a value in `[0,1)`.
-/

/-- The incoming message record, with one optional field per attribute path
probed by `execute` via `_dig` (a missing attribute yields `None`, i.e.
`none`).  Values are modelled as the strings Python's `str(...)` would
produce. -/
structure MaiMessages where
  message_base_info_group_id : Option String
  group_id : Option String
  ctx_group_id : Option String
  context_group_id : Option String
  processed_plain_text : Option String
  message_content : Option String
  content : Option String
  message_base_info_content : Option String
  raw_message : Option String
  text : Option String
  is_self : Bool
deriving DecidableEq

/-- Try to strip the literal character list `lit` from the front of `cs`. -/
def dropLit : List Char → List Char → Option (List Char)
  | [], cs => some cs
  | _ :: _, [] => none
  | l :: ls, c :: cs => if c = l then dropLit ls cs else none

/-- Python `str.strip()`: drop leading and trailing whitespace. -/
def pyStrip (s : String) : String :=
  ⟨(((s.data.dropWhile Char.isWhitespace).reverse.dropWhile
      Char.isWhitespace).reverse)⟩

/-- Does `s` start with the literal `p`?  (Python `str.startswith`.) -/
def strStartsWith (s p : String) : Bool :=
  (dropLit p.data s.data).isSome

/-- `_first_text(*vals)`: the first candidate that is non-`None` and whose
`str(v).strip()` is non-empty, returned stripped; `""` otherwise. -/
def first_text : List (Option String) → String
  | [] => ""
  | none :: rest => first_text rest
  | some v :: rest =>
    let s := pyStrip v
    if s = "" then first_text rest else s

/-- The group-id extraction of `execute` (lines 98–103): `_first_text` over
the four probed locations.  The subsequent `_safe_str` call is the identity
on the non-empty string produced here. -/
def extractGroupId (m : MaiMessages) : String :=
  first_text [m.message_base_info_group_id, m.group_id, m.ctx_group_id,
    m.context_group_id]

/-- The message-text extraction of `execute` (lines 111–118). -/
def extractText (m : MaiMessages) : String :=
  first_text [m.processed_plain_text, m.message_content, m.content,
    m.message_base_info_content, m.raw_message, m.text]

/-- Does `cs` start with a match of the regex `"post_type"\s*:\s*"notice"`? -/
def noticeAt (cs : List Char) : Bool :=
  match dropLit ("\"post_type\"".data) cs with
  | none => false
  | some r1 =>
    match r1.dropWhile Char.isWhitespace with
    | ':' :: r3 =>
      (dropLit ("\"notice\"".data) (r3.dropWhile Char.isWhitespace)).isSome
    | _ => false

/-- `re.search` of the notice pattern: a match starting at any position. -/
def containsNotice : List Char → Bool
  | [] => false
  | c :: rest => noticeAt (c :: rest) || containsNotice rest

/-- The notice-event filter of `execute` (line 126):
`re.search(r'"post_type"\s*:\s*"notice"', text)`. -/
def noticeEvent (s : String) : Bool :=
  containsNotice s.data

/-- Nonempty all-digit character list to its numeric value (`none` otherwise). -/
def parseDigits (cs : List Char) : Option Nat :=
  if cs = [] then none
  else if cs.all Char.isDigit then
    some (cs.foldl (fun a c => a * 10 + (c.toNat - 48)) 0)
  else none

/-- Python `int(s)` on a string: strips whitespace, allows an optional sign,
then requires a non-empty run of digits, raising `ValueError` (here: `none`)
otherwise.  (Underscore digit separators are not modelled; no input in this
development uses them.) -/
def pyParseInt (s : String) : Option Int :=
  match (pyStrip s).data with
  | '-' :: rest => (parseDigits rest).map (fun n => -(n : Int))
  | '+' :: rest => (parseDigits rest).map (fun n => (n : Int))
  | rest => (parseDigits rest).map (fun n => (n : Int))

/-- Parse, right after a literal `"@<"`, the remainder `name:digits>` of the
mention regex `@<([^:]+?):\d+>`: a non-empty colon-free `name`, a `:`, a
non-empty digit run, and `>`.  Returns the captured name and the rest of the
input.  (The lazy `[^:]+?` always captures exactly the characters up to the
first colon, since `[^:]` cannot cross it.) -/
def mentionParse (cs : List Char) : Option (List Char × List Char) :=
  let name := cs.takeWhile (fun c => c ≠ ':')
  if name.isEmpty then none
  else
    match cs.dropWhile (fun c => c ≠ ':') with
    | ':' :: r2 =>
      if (r2.takeWhile Char.isDigit).isEmpty then none
      else
        match r2.dropWhile Char.isDigit with
        | '>' :: r4 => some (name, r4)
        | _ => none
    | _ => none

/-- Left-to-right scan of `re.sub(r'@<([^:]+?):\d+>', r'@\1', ...)`: each
match `@<name:digits>` is replaced by `@name`; on a failed match the scan
resumes at the next character.  The fuel is only a termination device: every
step consumes at least one input character, so fuel equal to the input
length never runs out. -/
def cleanMentionsFuel : Nat → List Char → List Char
  | 0, cs => cs
  | _ + 1, [] => []
  | fuel + 1, '@' :: rest =>
    match rest with
    | '<' :: r1 =>
      match mentionParse r1 with
      | some (name, r2) => '@' :: (name ++ cleanMentionsFuel fuel r2)
      | none => '@' :: cleanMentionsFuel fuel rest
    | _ => '@' :: cleanMentionsFuel fuel rest
  | fuel + 1, c :: rest => c :: cleanMentionsFuel fuel rest

/-- The mention-markup rewrite applied to the echoed text (lines 176–177). -/
def cleanMentions (s : String) : String :=
  ⟨cleanMentionsFuel s.data.length s.data⟩

/-- `deque(maxlen=3).append`: append on the right, evicting from the left
whenever the length would exceed 3. -/
def dequeAppend3 (h : List String) (t : String) : List String :=
  let h' := h ++ [t]
  if 3 < h'.length then h'.drop (h'.length - 3) else h'

/-- The repeat-trigger test of `execute` (lines 157–158):
`len(history) >= 2 and history[-1] == history[-2] == text`, evaluated on the
window BEFORE the new text is appended. -/
def isRepeatTrigger (h : List String) (t : String) : Bool :=
  decide (2 ≤ h.length) &&
    (match h.reverse with
     | a :: b :: _ => a == b && b == t
     | _ => false)

/-- The effective handler configuration: the two probabilities returned by
the `get_config` calls at lines 86–87 (`debug_mode` only affects logging and
is not modelled). -/
structure Config where
  repeat_probability : ℚ
  skip_probability : ℚ

/-- The mutable class-level state of `RepeatHandler` (lines 80–81):
`chat_history` (per-group windows; a group absent from the dict is
represented by the empty window, matching the lazy `deque(maxlen=3)`
initialization) and `last_repeated_message`. -/
structure HState where
  chat_history : String → List String
  last_repeated_message : Option String

/-- The state at process start: no history for any group, guard unset. -/
def emptyState : HState :=
  ⟨fun _ => [], none⟩

/-- One `send_group_msg` call: the parsed integer group id, the payload
actually sent (after mention cleanup), and the `reply_text` it came from
(which is also what gets stored into `last_repeated_message`). -/
structure Emit where
  gid : Int
  payload : String
  source : String
deriving DecidableEq

/-- The one exception `execute` itself can raise: `ValueError` from
`int(group_id)` at line 179.  (`send_group_msg` catches all exceptions of
the HTTP call internally.) -/
inductive PyError where
  | valueError
deriving DecidableEq

/-- Result of one `execute` invocation: the state afterwards, the
`send_group_msg` calls made, and the exception that escaped, if any (the
handler otherwise returns the constant tuple `(True, True, None, None,
None)`). -/
structure ExecOut where
  state : HState
  emits : List Emit
  err : Option PyError

/-- Replace the window of one group, leaving all other state unchanged. -/
def HState.withHistory (st : HState) (g : String) (h : List String) : HState :=
  ⟨fun g' => if g' = g then h else st.chat_history g', st.last_repeated_message⟩

/-- Lines 173–188 of `execute`: the decision tail after the probability
gates.  `reply_text` is `some text` when both gates passed, `none`
otherwise.  Python's `if reply_text and reply_text != self.last_repeated_message`
is truthiness (non-`None` and non-empty) plus an inequality in which `None`
compares unequal to every string.  On an echo, the cleaned text is sent,
`last_repeated_message` is set to the original `reply_text`, and the
original `text` is appended to the window; `int(group_id)` raises before
any of that when the group id is not numeric. -/
def finish (st : HState) (group_id text : String) (reply_text : Option String) :
    ExecOut :=
  match reply_text with
  | some r =>
    if r ≠ "" ∧ st.last_repeated_message ≠ some r then
      match pyParseInt group_id with
      | none => ⟨st, [], some PyError.valueError⟩
      | some gid =>
        ⟨⟨fun g' => if g' = group_id then
            dequeAppend3 (st.chat_history group_id) text
          else st.chat_history g', some r⟩,
         [⟨gid, cleanMentions r, r⟩], none⟩
    else
      ⟨st.withHistory group_id (dequeAppend3 (st.chat_history group_id) text),
       [], none⟩
  | none =>
    ⟨st.withHistory group_id (dequeAppend3 (st.chat_history group_id) text),
     [], none⟩

/-- `RepeatHandler.execute` (lines 83–192).  `d1` and `d2` are the values of
the first and second `random.random()` calls of this invocation (drawn from
`[0,1)`; at most two calls happen, in the order skip-gate then repeat-gate).
Paths, in source order: `message is None`; empty group id; empty text;
notice event; `[CQ:` prefix; bot self-message (which may clear the guard);
repeat trigger with skip gate (early return after appending); repeat gate;
then the `finish` tail. -/
def execute (cfg : Config) (st : HState) (msg : Option MaiMessages)
    (d1 d2 : ℚ) : ExecOut :=
  match msg with
  | none => ⟨st, [], none⟩
  | some m =>
    let group_id := extractGroupId m
    if group_id = "" then ⟨st, [], none⟩
    else
      let text := extractText m
      if text = "" then ⟨st, [], none⟩
      else if noticeEvent text then ⟨st, [], none⟩
      else if strStartsWith text "[CQ:" then ⟨st, [], none⟩
      else if m.is_self then
        if st.last_repeated_message = some text then
          ⟨⟨st.chat_history, none⟩, [], none⟩
        else ⟨st, [], none⟩
      else
        let history := st.chat_history group_id
        if isRepeatTrigger history text then
          if d1 ≤ cfg.skip_probability then
            ⟨st.withHistory group_id (dequeAppend3 history text), [], none⟩
          else if d2 ≤ cfg.repeat_probability then
            finish st group_id text (some text)
          else finish st group_id text none
        else finish st group_id text none

/-- One inbound event: the message record (possibly `None`) together with
the two potential random draws of that invocation. -/
abbrev Item := Option MaiMessages × ℚ × ℚ

/-- Outcome of a run of consecutive handler invocations. -/
structure RunOut where
  state : HState
  emits : List Emit
  err : Option PyError

/-- Process a list of inbound events in order, accumulating the
`send_group_msg` calls; an escaped exception aborts the run. -/
def runMessages (cfg : Config) : HState → List Item → RunOut
  | st, [] => ⟨st, [], none⟩
  | st, (m, d1, d2) :: rest =>
    let o := execute cfg st m d1 d2
    match o.err with
    | some e => ⟨o.state, o.emits, some e⟩
    | none =>
      let r := runMessages cfg o.state rest
      ⟨r.state, o.emits ++ r.emits, r.err⟩

/-- All early-exit filters of `execute` in one predicate: the message is
present, has a group id and a non-empty text, is not a notice event, is not
media-prefixed, and is not the bot's own. -/
def passesFilters : Option MaiMessages → Bool
  | none => false
  | some m =>
    extractGroupId m ≠ "" && extractText m ≠ "" &&
      !noticeEvent (extractText m) &&
      !strStartsWith (extractText m) "[CQ:" && !m.is_self

/-- `get_config(key, default)` resolution for a float key.
Modelled from the spec: the framework's `get_config` (not part of this
repository's source) looks the key up in the configuration loaded from the
file at plugin activation and falls back to the default passed at the call
site when the file provides no value. -/
def getConfigFloat (fileVal : Option ℚ) (default : ℚ) : ℚ :=
  fileVal.getD default

/-- Effective `repeat_probability`: line 86 passes fallback `1.0`. -/
def effectiveRepeatProbability (fileVal : Option ℚ) : ℚ :=
  getConfigFloat fileVal 1

/-- Effective `skip_probability`: line 87 passes fallback `0.0`. -/
def effectiveSkipProbability (fileVal : Option ℚ) : ℚ :=
  getConfigFloat fileVal 0

/-- The default declared for `repeat.repeat_probability` in
`RepeatPlugin.config_schema` (line 216): `0.7`. -/
def schemaRepeatProbabilityDefault : ℚ := mkRat 7 10

/-- The default declared for `repeat.skip_probability` in
`RepeatPlugin.config_schema` (line 217): `0.1`. -/
def schemaSkipProbabilityDefault : ℚ := mkRat 1 10

/-- A message record carrying a group id (in the `group_id` attribute), a
text (in `processed_plain_text`) and a self flag; every other probed
attribute is absent. -/
def mkMsg (g t : String) (self : Bool) : MaiMessages :=
  ⟨none, some g, none, none, some t, none, none, none, none, none, self⟩

/-! ## Helper lemmas -/

theorem passes_iff (m : MaiMessages) :
    passesFilters (some m) = true ↔
      extractGroupId m ≠ "" ∧ extractText m ≠ "" ∧
        noticeEvent (extractText m) = false ∧
        strStartsWith (extractText m) "[CQ:" = false ∧ m.is_self = false := by
  simp only [passesFilters, Bool.and_eq_true, Bool.not_eq_true',
    decide_eq_true_eq, ne_eq]
  tauto

theorem dequeAppend3_length_le (h : List String) (t : String) :
    (dequeAppend3 h t).length ≤ 3 := by
  simp only [dequeAppend3]
  split
  · rw [List.length_drop]
    omega
  · omega

theorem mem_dequeAppend3 {h : List String} {t s : String}
    (hs : s ∈ dequeAppend3 h t) : s ∈ h ∨ s = t := by
  simp only [dequeAppend3] at hs
  split at hs
  · have hmem : s ∈ h ++ [t] := List.mem_of_mem_drop hs
    simpa using hmem
  · simpa using hs

theorem execute_none (cfg : Config) (st : HState) (d1 d2 : ℚ) :
    execute cfg st none d1 d2 = ⟨st, [], none⟩ := rfl

theorem execute_noGroup (cfg : Config) (st : HState) (m : MaiMessages)
    (d1 d2 : ℚ) (h : extractGroupId m = "") :
    execute cfg st (some m) d1 d2 = ⟨st, [], none⟩ := by
  simp [execute, h]

theorem execute_noText (cfg : Config) (st : HState) (m : MaiMessages)
    (d1 d2 : ℚ) (h : extractText m = "") :
    execute cfg st (some m) d1 d2 = ⟨st, [], none⟩ := by
  simp only [execute, h]
  split <;> simp

theorem execute_notice (cfg : Config) (st : HState) (m : MaiMessages)
    (d1 d2 : ℚ) (h : noticeEvent (extractText m) = true) :
    execute cfg st (some m) d1 d2 = ⟨st, [], none⟩ := by
  simp only [execute, h]
  split <;> simp

theorem execute_cq (cfg : Config) (st : HState) (m : MaiMessages)
    (d1 d2 : ℚ) (h : strStartsWith (extractText m) "[CQ:" = true) :
    execute cfg st (some m) d1 d2 = ⟨st, [], none⟩ := by
  simp only [execute, h]
  split <;> [skip; split] <;> simp

theorem execute_self (cfg : Config) (st : HState) (m : MaiMessages)
    (d1 d2 : ℚ) (h : m.is_self = true) :
    execute cfg st (some m) d1 d2 =
      if extractGroupId m = "" then ⟨st, [], none⟩
      else if extractText m = "" then ⟨st, [], none⟩
      else if noticeEvent (extractText m) then ⟨st, [], none⟩
      else if strStartsWith (extractText m) "[CQ:" then ⟨st, [], none⟩
      else if st.last_repeated_message = some (extractText m) then
        ⟨⟨st.chat_history, none⟩, [], none⟩
      else ⟨st, [], none⟩ := by
  simp [execute, h]

theorem execute_pass (cfg : Config) (st : HState) (m : MaiMessages)
    (d1 d2 : ℚ) (h : passesFilters (some m) = true) :
    execute cfg st (some m) d1 d2 =
      (if isRepeatTrigger (st.chat_history (extractGroupId m))
          (extractText m) then
        if d1 ≤ cfg.skip_probability then
          ⟨st.withHistory (extractGroupId m)
            (dequeAppend3 (st.chat_history (extractGroupId m))
              (extractText m)), [], none⟩
        else if d2 ≤ cfg.repeat_probability then
          finish st (extractGroupId m) (extractText m) (some (extractText m))
        else finish st (extractGroupId m) (extractText m) none
      else finish st (extractGroupId m) (extractText m) none) := by
  obtain ⟨h1, h2, h3, h4, h5⟩ := (passes_iff m).mp h
  simp only [execute, if_neg h1, if_neg h2, h3, h4, h5, Bool.false_eq_true,
    if_false]

theorem finish_none (st : HState) (g t : String) :
    finish st g t none =
      ⟨st.withHistory g (dequeAppend3 (st.chat_history g) t), [], none⟩ := rfl

theorem finish_some_blocked (st : HState) (g t r : String)
    (h : r = "" ∨ st.last_repeated_message = some r) :
    finish st g t (some r) =
      ⟨st.withHistory g (dequeAppend3 (st.chat_history g) t), [], none⟩ := by
  have : ¬(r ≠ "" ∧ st.last_repeated_message ≠ some r) := by tauto
  simp [finish, this]

theorem finish_some_emit (st : HState) (g t r : String) (gid : Int)
    (hr : r ≠ "") (hl : st.last_repeated_message ≠ some r)
    (hg : pyParseInt g = some gid) :
    finish st g t (some r) =
      ⟨⟨fun g' => if g' = g then dequeAppend3 (st.chat_history g) t
          else st.chat_history g', some r⟩,
       [⟨gid, cleanMentions r, r⟩], none⟩ := by
  simp [finish, hr, hl, hg]

theorem finish_some_error (st : HState) (g t r : String)
    (hr : r ≠ "") (hl : st.last_repeated_message ≠ some r)
    (hg : pyParseInt g = none) :
    finish st g t (some r) = ⟨st, [], some PyError.valueError⟩ := by
  simp [finish, hr, hl, hg]

theorem pyParseInt_ne_empty {g : String} {gid : Int}
    (h : pyParseInt g = some gid) : g ≠ "" := by
  intro hg
  rw [hg] at h
  simp [pyParseInt, pyStrip, parseDigits] at h

theorem execute_not_pass (cfg : Config) (st : HState) (m : MaiMessages)
    (d1 d2 : ℚ) (h : passesFilters (some m) = false) :
    execute cfg st (some m) d1 d2 = ⟨st, [], none⟩ ∨
    (m.is_self = true ∧
      st.last_repeated_message = some (extractText m) ∧
      execute cfg st (some m) d1 d2 = ⟨⟨st.chat_history, none⟩, [], none⟩) := by
  by_cases h1 : extractGroupId m = ""
  · exact Or.inl (execute_noGroup _ _ _ _ _ h1)
  by_cases h2 : extractText m = ""
  · exact Or.inl (execute_noText _ _ _ _ _ h2)
  by_cases h3 : noticeEvent (extractText m) = true
  · exact Or.inl (execute_notice _ _ _ _ _ h3)
  by_cases h4 : strStartsWith (extractText m) "[CQ:" = true
  · exact Or.inl (execute_cq _ _ _ _ _ h4)
  have h5 : m.is_self = true := by
    by_contra h5
    have hp : passesFilters (some m) = true :=
      (passes_iff m).mpr ⟨h1, h2, Bool.not_eq_true _ ▸ h3,
        Bool.not_eq_true _ ▸ h4, Bool.not_eq_true _ ▸ h5⟩
    rw [h] at hp
    exact Bool.false_ne_true hp
  rw [execute_self cfg st m d1 d2 h5, if_neg h1, if_neg h2, if_neg h3,
    if_neg h4]
  by_cases h6 : st.last_repeated_message = some (extractText m)
  · exact Or.inr ⟨h5, h6, by rw [if_pos h6]⟩
  · exact Or.inl (by rw [if_neg h6])

theorem execute_no_trigger (cfg : Config) (st : HState) (m : MaiMessages)
    (d1 d2 : ℚ) (h : passesFilters (some m) = true)
    (htr : isRepeatTrigger (st.chat_history (extractGroupId m))
      (extractText m) = false) :
    execute cfg st (some m) d1 d2 =
      ⟨st.withHistory (extractGroupId m)
        (dequeAppend3 (st.chat_history (extractGroupId m)) (extractText m)),
       [], none⟩ := by
  rw [execute_pass cfg st m d1 d2 h, if_neg (by simp [htr]), finish_none]

theorem execute_skip (cfg : Config) (st : HState) (m : MaiMessages)
    (d1 d2 : ℚ) (h : passesFilters (some m) = true)
    (htr : isRepeatTrigger (st.chat_history (extractGroupId m))
      (extractText m) = true)
    (hd1 : d1 ≤ cfg.skip_probability) :
    execute cfg st (some m) d1 d2 =
      ⟨st.withHistory (extractGroupId m)
        (dequeAppend3 (st.chat_history (extractGroupId m)) (extractText m)),
       [], none⟩ := by
  rw [execute_pass cfg st m d1 d2 h, if_pos htr, if_pos hd1]

theorem execute_emit (cfg : Config) (st : HState) (m : MaiMessages)
    (d1 d2 : ℚ) (gid : Int) (h : passesFilters (some m) = true)
    (htr : isRepeatTrigger (st.chat_history (extractGroupId m))
      (extractText m) = true)
    (hd1 : ¬ d1 ≤ cfg.skip_probability) (hd2 : d2 ≤ cfg.repeat_probability)
    (hl : st.last_repeated_message ≠ some (extractText m))
    (hgid : pyParseInt (extractGroupId m) = some gid) :
    execute cfg st (some m) d1 d2 =
      ⟨⟨(st.withHistory (extractGroupId m)
          (dequeAppend3 (st.chat_history (extractGroupId m))
            (extractText m))).chat_history, some (extractText m)⟩,
       [⟨gid, cleanMentions (extractText m), extractText m⟩], none⟩ := by
  have ht : extractText m ≠ "" := ((passes_iff m).mp h).2.1
  rw [execute_pass cfg st m d1 d2 h, if_pos htr, if_neg hd1, if_pos hd2,
    finish_some_emit st _ _ _ gid ht hl hgid]
  rfl

/-- Master case analysis for an invocation whose message passes every
early-exit filter. -/
theorem execute_pass_cases (cfg : Config) (st : HState) (m : MaiMessages)
    (d1 d2 : ℚ) (h : passesFilters (some m) = true) :
    execute cfg st (some m) d1 d2 =
        ⟨st.withHistory (extractGroupId m)
          (dequeAppend3 (st.chat_history (extractGroupId m)) (extractText m)),
         [], none⟩ ∨
    (∃ gid, pyParseInt (extractGroupId m) = some gid ∧
      isRepeatTrigger (st.chat_history (extractGroupId m))
        (extractText m) = true ∧
      st.last_repeated_message ≠ some (extractText m) ∧
      execute cfg st (some m) d1 d2 =
        ⟨⟨(st.withHistory (extractGroupId m)
            (dequeAppend3 (st.chat_history (extractGroupId m))
              (extractText m))).chat_history, some (extractText m)⟩,
         [⟨gid, cleanMentions (extractText m), extractText m⟩], none⟩) ∨
    (pyParseInt (extractGroupId m) = none ∧
      execute cfg st (some m) d1 d2 = ⟨st, [], some PyError.valueError⟩) := by
  have ht : extractText m ≠ "" := ((passes_iff m).mp h).2.1
  by_cases htr : isRepeatTrigger (st.chat_history (extractGroupId m))
      (extractText m) = true
  · by_cases hd1 : d1 ≤ cfg.skip_probability
    · exact Or.inl (execute_skip cfg st m d1 d2 h htr hd1)
    · by_cases hd2 : d2 ≤ cfg.repeat_probability
      · by_cases hl : st.last_repeated_message = some (extractText m)
        · refine Or.inl ?_
          rw [execute_pass cfg st m d1 d2 h, if_pos htr, if_neg hd1,
            if_pos hd2, finish_some_blocked st _ _ _ (Or.inr hl)]
        · cases hp : pyParseInt (extractGroupId m) with
          | none =>
            refine Or.inr (Or.inr ⟨rfl, ?_⟩)
            rw [execute_pass cfg st m d1 d2 h, if_pos htr, if_neg hd1,
              if_pos hd2, finish_some_error st _ _ _ ht hl hp]
          | some gid =>
            exact Or.inr (Or.inl ⟨gid, rfl, htr, hl,
              execute_emit cfg st m d1 d2 gid h htr hd1 hd2 hl hp⟩)
      · refine Or.inl ?_
        rw [execute_pass cfg st m d1 d2 h, if_pos htr, if_neg hd1,
          if_neg hd2, finish_none]
  · exact Or.inl (execute_no_trigger cfg st m d1 d2 h
      (Bool.not_eq_true _ ▸ htr))

theorem runMessages_cons (cfg : Config) (st : HState) (m : Option MaiMessages)
    (d1 d2 : ℚ) (rest : List Item) :
    runMessages cfg st ((m, d1, d2) :: rest) =
      match (execute cfg st m d1 d2).err with
      | some e =>
        ⟨(execute cfg st m d1 d2).state, (execute cfg st m d1 d2).emits,
         some e⟩
      | none =>
        ⟨(runMessages cfg (execute cfg st m d1 d2).state rest).state,
         (execute cfg st m d1 d2).emits ++
           (runMessages cfg (execute cfg st m d1 d2).state rest).emits,
         (runMessages cfg (execute cfg st m d1 d2).state rest).err⟩ := rfl

theorem isRepeatTrigger_concat (rest : List String) (t : String) :
    isRepeatTrigger (rest ++ [t, t]) t = true := by
  simp [isRepeatTrigger, List.reverse_append]

theorem isRepeatTrigger_iff (h : List String) (t : String) :
    isRepeatTrigger h t = true ↔ 2 ≤ h.length ∧ ∃ pre, h = pre ++ [t, t] := by
  constructor
  · intro hh
    simp only [isRepeatTrigger, Bool.and_eq_true, decide_eq_true_eq] at hh
    obtain ⟨hlen, hm⟩ := hh
    rcases hr : h.reverse with _ | ⟨a, rest⟩
    · rw [hr] at hm
      simp at hm
    · rcases rest with _ | ⟨b, rev⟩
      · rw [hr] at hm
        simp at hm
      · rw [hr] at hm
        simp only [Bool.and_eq_true, beq_iff_eq] at hm
        obtain ⟨hab, hbt⟩ := hm
        refine ⟨hlen, rev.reverse, ?_⟩
        have hh' : h = (a :: b :: rev).reverse := by
          rw [← hr, List.reverse_reverse]
        rw [hh']
        simp [hab, hbt]
  · rintro ⟨_, pre, rfl⟩
    exact isRepeatTrigger_concat pre t

theorem isRepeatTrigger_mem {h : List String} {t : String}
    (hh : isRepeatTrigger h t = true) : t ∈ h := by
  obtain ⟨-, pre, rfl⟩ := (isRepeatTrigger_iff h t).mp hh
  simp

theorem execute_chatHistory_cases (cfg : Config) (st : HState)
    (msg : Option MaiMessages) (d1 d2 : ℚ) (g : String) :
    (execute cfg st msg d1 d2).state.chat_history g = st.chat_history g ∨
    ∃ t, (execute cfg st msg d1 d2).state.chat_history g =
      dequeAppend3 (st.chat_history g) t := by
  cases msg with
  | none => exact Or.inl rfl
  | some m =>
    by_cases hp : passesFilters (some m) = true
    · rcases execute_pass_cases cfg st m d1 d2 hp with
        hc | ⟨gid, _, _, _, hc⟩ | ⟨_, hc⟩
      · rw [hc]
        by_cases hg : g = extractGroupId m
        · subst hg
          exact Or.inr ⟨extractText m, by simp [HState.withHistory]⟩
        · exact Or.inl (by simp [HState.withHistory, hg])
      · rw [hc]
        by_cases hg : g = extractGroupId m
        · subst hg
          exact Or.inr ⟨extractText m, by simp [HState.withHistory]⟩
        · exact Or.inl (by simp [HState.withHistory, hg])
      · rw [hc]
        exact Or.inl rfl
    · rcases execute_not_pass cfg st m d1 d2 (Bool.not_eq_true _ ▸ hp) with
        hc | ⟨_, _, hc⟩ <;> rw [hc] <;> exact Or.inl rfl

theorem execute_hist_le (cfg : Config) (st : HState)
    (msg : Option MaiMessages) (d1 d2 : ℚ)
    (hst : ∀ g, (st.chat_history g).length ≤ 3) :
    ∀ g, ((execute cfg st msg d1 d2).state.chat_history g).length ≤ 3 := by
  intro g
  rcases execute_chatHistory_cases cfg st msg d1 d2 g with hc | ⟨t, hc⟩
  · rw [hc]
    exact hst g
  · rw [hc]
    exact dequeAppend3_length_le _ _

theorem runMessages_hist_le (cfg : Config) :
    ∀ (items : List Item) (st : HState),
      (∀ g, (st.chat_history g).length ≤ 3) →
      ∀ g, ((runMessages cfg st items).state.chat_history g).length ≤ 3 := by
  intro items
  induction items with
  | nil => exact fun st hst g => hst g
  | cons it rest ih =>
    intro st hst g
    obtain ⟨m, d1, d2⟩ := it
    have hstep := execute_hist_le cfg st m d1 d2 hst
    rw [runMessages_cons]
    cases herr : (execute cfg st m d1 d2).err with
    | some e => exact hstep g
    | none => exact ih _ hstep g

/-! ## Claim C6 -/

/-- C6: for every group, the per-group history window never holds more than
3 entries after any number of handler invocations (starting from the fresh
process state), and appending to a full window of 3 evicts the oldest entry
first-in-first-out. -/
theorem c6_window_bounded_and_fifo :
    (∀ (cfg : Config) (items : List Item) (g : String),
      ((runMessages cfg emptyState items).state.chat_history g).length ≤ 3) ∧
    (∀ a b c t : String, dequeAppend3 [a, b, c] t = [b, c, t]) := by
  constructor
  · intro cfg items g
    exact runMessages_hist_le cfg items emptyState
      (fun _ => by simp [emptyState]) g
  · intro a b c t
    rfl

/-! ## Claim C8 -/

/-- C8 counterexample: with no value in the configuration file, the
effective probabilities are the in-code fallbacks of the `get_config` calls
(lines 86–87), which differ from the schema-declared defaults 0.7 and 0.1
the claim states. -/
theorem c8_fallback_defaults_counterexample :
    effectiveRepeatProbability none ≠ schemaRepeatProbabilityDefault ∧
      effectiveSkipProbability none ≠ schemaSkipProbabilityDefault := by
  constructor <;> decide

/-- C8 (amended): when the configuration file provides no value for the
repeat section, the handler's effective `repeat_probability` is `1.0` and
its effective `skip_probability` is `0.0` — the fallback defaults passed at
the `get_config` call sites (lines 86–87); the schema defaults (lines
216–217) are 0.7 and 0.1 and take effect only through a value present in
the configuration file. -/
theorem c8_effective_fallback_defaults :
    effectiveRepeatProbability none = 1 ∧ effectiveSkipProbability none = 0 ∧
      (∀ q : ℚ, effectiveRepeatProbability (some q) = q) ∧
      (∀ q : ℚ, effectiveSkipProbability (some q) = q) ∧
      schemaRepeatProbabilityDefault = mkRat 7 10 ∧
      schemaSkipProbabilityDefault = mkRat 1 10 :=
  ⟨rfl, rfl, fun _ => rfl, fun _ => rfl, rfl, rfl⟩

/-! ## Claim C3 -/

/-- A message whose group id is the non-numeric string `"g"`. -/
def msgBadGroup : MaiMessages := mkMsg "g" "A" false

/-- Handler state in which group `"g"` has already seen `"A"` twice. -/
def stTwoA : HState := ⟨fun g => if g = "g" then ["A", "A"] else [], none⟩

/-- C3: the claim (no exception ever crosses the handler boundary) is
violated by the code: on a third consecutive `"A"` in a group whose id is
not a decimal integer, with both probability gates passing, the
`int(group_id)` call at line 179 raises `ValueError`, which escapes
`execute` (only `send_group_msg` has a `try`/`except`).  The message passes
every early-exit filter, yet the invocation ends with an escaped
exception. -/
theorem c3_exception_escapes_on_nonnumeric_group :
    passesFilters (some msgBadGroup) = true ∧
    (execute ⟨1, 0⟩ stTwoA (some msgBadGroup) (mkRat 1 2)
        (mkRat 1 2)).err = some PyError.valueError := by
  decide

/-! ## Claim C7 -/

/-- A message whose group id is the non-numeric string `"gg"`. -/
def msgBadGroupB : MaiMessages := mkMsg "gg" "B" false

/-- Handler state in which group `"gg"` has already seen `"B"` twice. -/
def stTwoB : HState := ⟨fun g => if g = "gg" then ["B", "B"] else [], none⟩

/-- C7 counterexample: a message that passes every early-exit filter but
whose invocation performs NO history append — the `int(group_id)` raise on
the emitted-echo path happens before the append at line 188, so the window
of group `"gg"` stays `["B", "B"]` instead of becoming `["B", "B", "B"]`. -/
theorem c7_missing_append_counterexample :
    passesFilters (some msgBadGroupB) = true ∧
    (execute ⟨1, 0⟩ stTwoB (some msgBadGroupB) (mkRat 1 2)
        (mkRat 1 2)).state.chat_history "gg" = ["B", "B"] ∧
    dequeAppend3 ["B", "B"] "B" = ["B", "B", "B"] := by
  decide

/-- C7 (amended): each invocation mutates at most the invoked group's
history, by exactly one append of the extracted text, when the message
passes all early-exit filters AND no exception escapes; a filtered or
self-authored message, and an invocation aborted by the escaping
`ValueError` of the echo path, mutate no group's history. -/
theorem c7_history_mutation_frame :
    (∀ (cfg : Config) (st : HState) (d1 d2 : ℚ) (g : String),
      (execute cfg st none d1 d2).state.chat_history g = st.chat_history g) ∧
    (∀ (cfg : Config) (st : HState) (m : MaiMessages) (d1 d2 : ℚ),
      (passesFilters (some m) = false →
        ∀ g, (execute cfg st (some m) d1 d2).state.chat_history g =
          st.chat_history g) ∧
      (passesFilters (some m) = true →
        (∀ g, g ≠ extractGroupId m →
          (execute cfg st (some m) d1 d2).state.chat_history g =
            st.chat_history g) ∧
        ((execute cfg st (some m) d1 d2).err = none →
          (execute cfg st (some m) d1 d2).state.chat_history
              (extractGroupId m) =
            dequeAppend3 (st.chat_history (extractGroupId m))
              (extractText m)) ∧
        ((execute cfg st (some m) d1 d2).err ≠ none →
          ∀ g, (execute cfg st (some m) d1 d2).state.chat_history g =
            st.chat_history g))) := by
  refine ⟨fun _ _ _ _ _ => rfl, fun cfg st m d1 d2 => ⟨?_, ?_⟩⟩
  · intro hnp g
    rcases execute_not_pass cfg st m d1 d2 hnp with hc | ⟨_, _, hc⟩ <;>
      rw [hc]
  · intro hp
    rcases execute_pass_cases cfg st m d1 d2 hp with
      hc | ⟨gid, _, _, _, hc⟩ | ⟨_, hc⟩
    · rw [hc]
      refine ⟨fun g hg => by simp [HState.withHistory, hg], fun _ => by
        simp [HState.withHistory], fun habs => absurd rfl habs⟩
    · rw [hc]
      refine ⟨fun g hg => by simp [HState.withHistory, hg], fun _ => by
        simp [HState.withHistory], fun habs => absurd rfl habs⟩
    · rw [hc]
      exact ⟨fun g _ => rfl, fun habs => by simp at habs, fun _ g => rfl⟩

/-- C7 witness: a concrete passing message appends its text to its group's
window. -/
theorem c7_history_mutation_frame_witness :
    (execute ⟨1, 0⟩ emptyState (some (mkMsg "5" "hi" false))
        0 0).state.chat_history (extractGroupId (mkMsg "5" "hi" false)) =
      dequeAppend3
        (emptyState.chat_history (extractGroupId (mkMsg "5" "hi" false)))
        (extractText (mkMsg "5" "hi" false)) :=
  ((c7_history_mutation_frame.2 ⟨1, 0⟩ emptyState (mkMsg "5" "hi" false)
    0 0).2 (by decide)).2.1 (by decide)

/-! ## Claim C4 -/

theorem execute_skipAll_no_emit (cfg : Config) (st : HState)
    (msg : Option MaiMessages) (d1 d2 : ℚ)
    (hskip : cfg.skip_probability = 1) (hd : d1 < 1) :
    (execute cfg st msg d1 d2).emits = [] ∧
    (execute cfg st msg d1 d2).err = none := by
  cases msg with
  | none => exact ⟨rfl, rfl⟩
  | some m =>
    by_cases hp : passesFilters (some m) = true
    · by_cases htr : isRepeatTrigger (st.chat_history (extractGroupId m))
          (extractText m) = true
      · rw [execute_skip cfg st m d1 d2 hp htr
          (by rw [hskip]; exact le_of_lt hd)]
        exact ⟨rfl, rfl⟩
      · rw [execute_no_trigger cfg st m d1 d2 hp (Bool.not_eq_true _ ▸ htr)]
        exact ⟨rfl, rfl⟩
    · rcases execute_not_pass cfg st m d1 d2 (Bool.not_eq_true _ ▸ hp) with
        hc | ⟨_, _, hc⟩ <;> rw [hc] <;> exact ⟨rfl, rfl⟩

/-- C4: with `skip_probability = 1.0`, for every message sequence, every
`repeat_probability`, every starting state and every sequence of uniform
random draws in `[0,1)`, the handler never emits an echo (the skip gate
`random.random() <= 1.0` always fires on a trigger; no other path emits). -/
theorem c4_skip_probability_one_never_emits (cfg : Config)
    (hskip : cfg.skip_probability = 1) :
    ∀ items : List Item,
      (∀ it ∈ items, 0 ≤ it.2.1 ∧ it.2.1 < 1 ∧ 0 ≤ it.2.2 ∧ it.2.2 < 1) →
      ∀ st, (runMessages cfg st items).emits = [] ∧
        (runMessages cfg st items).err = none := by
  intro items
  induction items with
  | nil => exact fun _ _ => ⟨rfl, rfl⟩
  | cons it rest ih =>
    intro hdraws st
    obtain ⟨m, d1, d2⟩ := it
    have hd1 : d1 < 1 :=
      (hdraws (m, d1, d2) (List.mem_cons_self _ _)).2.1
    obtain ⟨he, herr⟩ := execute_skipAll_no_emit cfg st m d1 d2 hskip hd1
    have ihr := ih (fun it' hit' => hdraws it' (List.mem_cons_of_mem _ hit'))
      (execute cfg st m d1 d2).state
    rw [runMessages_cons, herr]
    refine ⟨?_, ihr.2⟩
    rw [he, List.nil_append]
    exact ihr.1

/-- A plain user message: group `"1"`, text `"A"`, not from the bot. -/
def msgA : MaiMessages := mkMsg "1" "A" false

/-- C4 witness: a concrete triple-`"A"` streak with `skip_probability = 1`
emits nothing. -/
theorem c4_skip_probability_one_never_emits_witness :
    (runMessages ⟨mkRat 7 10, 1⟩ emptyState
      [(some msgA, 0, 0), (some msgA, 0, 0), (some msgA, 0, 0)]).emits =
      [] :=
  (c4_skip_probability_one_never_emits ⟨mkRat 7 10, 1⟩ rfl
    [(some msgA, 0, 0), (some msgA, 0, 0), (some msgA, 0, 0)]
    (by decide) emptyState).1

/-! ## Claim C9 -/

/-- C9: on every invocation that emits an echo, the payload handed to
`send_group_msg` is the mention-cleanup of the echoed text, the echoed text
is the extracted message text, and the state keeps the ORIGINAL text: the
guard `last_repeated_message` stores it unrewritten and the window append
uses it unrewritten.  Concretely the cleanup rewrites `@<name:123>` to
`@name`. -/
theorem c9_mention_rewrite_only_in_emission :
    (∀ (cfg : Config) (st : HState) (m : MaiMessages) (d1 d2 : ℚ)
      (e : Emit), e ∈ (execute cfg st (some m) d1 d2).emits →
      e.payload = cleanMentions e.source ∧ e.source = extractText m ∧
      (execute cfg st (some m) d1 d2).state.last_repeated_message =
        some e.source ∧
      (execute cfg st (some m) d1 d2).state.chat_history
          (extractGroupId m) =
        dequeAppend3 (st.chat_history (extractGroupId m))
          (extractText m)) ∧
    cleanMentions "hi @<name:123> ok" = "hi @name ok" := by
  constructor
  · intro cfg st m d1 d2 e he
    by_cases hp : passesFilters (some m) = true
    · rcases execute_pass_cases cfg st m d1 d2 hp with
        hc | ⟨gid, hgid, htr, hl, hc⟩ | ⟨hgid, hc⟩
      · rw [hc] at he
        simp at he
      · rw [hc] at he
        simp only [List.mem_singleton] at he
        subst he
        rw [hc]
        exact ⟨rfl, rfl, rfl, by simp [HState.withHistory]⟩
      · rw [hc] at he
        simp at he
    · rcases execute_not_pass cfg st m d1 d2 (Bool.not_eq_true _ ▸ hp) with
        hc | ⟨_, _, hc⟩ <;> rw [hc] at he <;> simp at he
  · decide

/-- Handler state in which group `"1"` has already seen `"A"` twice. -/
def stAA1 : HState := ⟨fun g => if g = "1" then ["A", "A"] else [], none⟩

/-- C9 witness: the concrete echo of a third consecutive `"A"` in group
`"1"`. -/
theorem c9_mention_rewrite_only_in_emission_witness :
    (Emit.mk 1 "A" "A").payload =
        cleanMentions (Emit.mk 1 "A" "A").source ∧
      (Emit.mk 1 "A" "A").source = extractText msgA ∧
      (execute ⟨1, 0⟩ stAA1 (some msgA) (mkRat 1 2)
          (mkRat 1 2)).state.last_repeated_message =
        some (Emit.mk 1 "A" "A").source ∧
      (execute ⟨1, 0⟩ stAA1 (some msgA) (mkRat 1 2)
          (mkRat 1 2)).state.chat_history (extractGroupId msgA) =
        dequeAppend3 (stAA1.chat_history (extractGroupId msgA))
          (extractText msgA) :=
  c9_mention_rewrite_only_in_emission.1 ⟨1, 0⟩ stAA1 msgA (mkRat 1 2)
    (mkRat 1 2) ⟨1, "A", "A"⟩ (by decide)

/-! ## Claim C10 -/

/-- C10: the repeat trigger holds for EVERY window whose last two entries
equal the incoming text, whatever came before them — so in an unbroken
streak of `n ≥ 3` identical messages it fires from the 3rd through the nth.
Concretely, with `repeat_probability = 0.5`, a 4-message `"A"` streak whose
3rd message fails the repeat gate (draw 0.75) still echoes on the 4th
message (draw 0.25), the `last_repeated_message` guard permitting. -/
theorem c10_trigger_persists_through_streak :
    (∀ (rest : List String) (t : String),
      isRepeatTrigger (rest ++ [t, t]) t = true) ∧
    (runMessages ⟨mkRat 1 2, 0⟩ emptyState
      [(some msgA, mkRat 1 2, mkRat 3 4),
       (some msgA, mkRat 1 2, mkRat 3 4),
       (some msgA, mkRat 1 2, mkRat 3 4),
       (some msgA, mkRat 1 2, mkRat 1 4)]).emits = [⟨1, "A", "A"⟩] := by
  constructor
  · exact isRepeatTrigger_concat
  · decide

theorem runMessages_nil (cfg : Config) (st : HState) :
    runMessages cfg st [] = ⟨st, [], none⟩ := rfl

theorem runMessages_cons_ok (cfg : Config) (st : HState)
    (m : Option MaiMessages) (d1 d2 : ℚ) (rest : List Item) (st' : HState)
    (es : List Emit) (h : execute cfg st m d1 d2 = ⟨st', es, none⟩) :
    runMessages cfg st ((m, d1, d2) :: rest) =
      ⟨(runMessages cfg st' rest).state,
       es ++ (runMessages cfg st' rest).emits,
       (runMessages cfg st' rest).err⟩ := by
  rw [runMessages_cons, h]

/-! ## Claim C1 -/

/-- C1 counterexample: the skip gate is `random.random() <= skip_probability`
(line 160), and `random.random()` can return exactly `0.0`; with
`skip_probability = 0.0` the draw sequence whose third-message skip draw is
`0.0` therefore takes the skip branch, emits NOTHING, and leaves
`LastRepeatedMessage` unset — refuting "for every possible sequence of
draws it emits exactly one echo and LastRepeatedMessage becomes A". -/
theorem c1_zero_draw_skips_counterexample :
    (runMessages ⟨1, 0⟩ emptyState
      [(some msgA, 0, 0), (some msgA, 0, 0), (some msgA, 0, 0)]).emits =
      [] ∧
    (runMessages ⟨1, 0⟩ emptyState
      [(some msgA, 0, 0), (some msgA, 0, 0),
       (some msgA, 0, 0)]).state.last_repeated_message = none := by
  decide

/-- C1 (amended): starting from empty history for a group with a decimal
integer id and `LastRepeatedMessage` unset, three consecutive non-self
messages with identical text `"A"` in that group, with
`repeat_probability = 1.0` and `skip_probability = 0.0`, emit exactly one
echo of `"A"` and set `LastRepeatedMessage` to `"A"` — for every sequence
of uniform draws in `[0,1)` whose skip draw at the triggering third message
is strictly positive (a skip draw of exactly `0.0` fires the `<=` skip gate
and nothing is emitted, per the counterexample). -/
theorem c1_three_identical_messages_one_echo
    (st : HState) (g : String) (gid : Int) (m1 m2 m3 : MaiMessages)
    (d11 d12 d21 d22 d31 d32 : ℚ)
    (hgid : pyParseInt g = some gid)
    (hst : st.chat_history g = [])
    (hlast : st.last_repeated_message = none)
    (hg1 : extractGroupId m1 = g) (ht1 : extractText m1 = "A")
    (hs1 : m1.is_self = false)
    (hg2 : extractGroupId m2 = g) (ht2 : extractText m2 = "A")
    (hs2 : m2.is_self = false)
    (hg3 : extractGroupId m3 = g) (ht3 : extractText m3 = "A")
    (hs3 : m3.is_self = false)
    (hd31 : 0 < d31) (hd31' : d31 < 1) (hd32 : 0 ≤ d32) (hd32' : d32 < 1) :
    (runMessages ⟨1, 0⟩ st
      [(some m1, d11, d12), (some m2, d21, d22),
       (some m3, d31, d32)]).emits = [⟨gid, cleanMentions "A", "A"⟩] ∧
    (runMessages ⟨1, 0⟩ st
      [(some m1, d11, d12), (some m2, d21, d22),
       (some m3, d31, d32)]).state.last_repeated_message = some "A" ∧
    (runMessages ⟨1, 0⟩ st
      [(some m1, d11, d12), (some m2, d21, d22),
       (some m3, d31, d32)]).err = none := by
  have hgne : g ≠ "" := pyParseInt_ne_empty hgid
  have hp1 : passesFilters (some m1) = true :=
    (passes_iff m1).mpr ⟨by rw [hg1]; exact hgne, by rw [ht1]; decide,
      by rw [ht1]; decide, by rw [ht1]; decide, hs1⟩
  have hp2 : passesFilters (some m2) = true :=
    (passes_iff m2).mpr ⟨by rw [hg2]; exact hgne, by rw [ht2]; decide,
      by rw [ht2]; decide, by rw [ht2]; decide, hs2⟩
  have hp3 : passesFilters (some m3) = true :=
    (passes_iff m3).mpr ⟨by rw [hg3]; exact hgne, by rw [ht3]; decide,
      by rw [ht3]; decide, by rw [ht3]; decide, hs3⟩
  have e1 : execute ⟨1, 0⟩ st (some m1) d11 d12 =
      ⟨st.withHistory g ["A"], [], none⟩ := by
    have htr : isRepeatTrigger (st.chat_history (extractGroupId m1))
        (extractText m1) = false := by
      rw [hg1, ht1, hst]
      decide
    rw [execute_no_trigger _ _ _ _ _ hp1 htr, hg1, ht1, hst]
    rfl
  have hs1g : (st.withHistory g ["A"]).chat_history g = ["A"] := by
    simp [HState.withHistory]
  have e2 : execute ⟨1, 0⟩ (st.withHistory g ["A"]) (some m2) d21 d22 =
      ⟨(st.withHistory g ["A"]).withHistory g ["A", "A"], [], none⟩ := by
    have htr : isRepeatTrigger
        ((st.withHistory g ["A"]).chat_history (extractGroupId m2))
        (extractText m2) = false := by
      rw [hg2, ht2, hs1g]
      decide
    rw [execute_no_trigger _ _ _ _ _ hp2 htr, hg2, ht2, hs1g]
    rfl
  have hs2g : ((st.withHistory g ["A"]).withHistory g
      ["A", "A"]).chat_history g = ["A", "A"] := by
    simp [HState.withHistory]
  have hs2last : ((st.withHistory g ["A"]).withHistory g
      ["A", "A"]).last_repeated_message = none := hlast
  have htr3 : isRepeatTrigger
      (((st.withHistory g ["A"]).withHistory g ["A", "A"]).chat_history
        (extractGroupId m3)) (extractText m3) = true := by
    rw [hg3, ht3, hs2g]
    decide
  have hl3 : ((st.withHistory g ["A"]).withHistory g
      ["A", "A"]).last_repeated_message ≠ some (extractText m3) := by
    rw [hs2last]
    exact fun habs => Option.noConfusion habs
  have e3 := execute_emit ⟨1, 0⟩
    ((st.withHistory g ["A"]).withHistory g ["A", "A"]) m3 d31 d32 gid hp3
    htr3 (not_le.mpr hd31) (le_of_lt hd32') hl3 (by rw [hg3]; exact hgid)
  rw [ht3] at e3
  rw [runMessages_cons_ok _ _ _ _ _ _ _ _ e1,
    runMessages_cons_ok _ _ _ _ _ _ _ _ e2,
    runMessages_cons_ok _ _ _ _ _ _ _ _ e3, runMessages_nil]
  exact ⟨rfl, rfl, rfl⟩

/-- C1 witness: the amended claim at a concrete group and concrete positive
draws. -/
theorem c1_three_identical_messages_one_echo_witness :
    (runMessages ⟨1, 0⟩ emptyState
      [(some msgA, 0, 0), (some msgA, 0, 0),
       (some msgA, mkRat 1 2, mkRat 1 2)]).emits =
      [⟨1, cleanMentions "A", "A"⟩] ∧
    (runMessages ⟨1, 0⟩ emptyState
      [(some msgA, 0, 0), (some msgA, 0, 0),
       (some msgA, mkRat 1 2, mkRat 1 2)]).state.last_repeated_message =
      some "A" ∧
    (runMessages ⟨1, 0⟩ emptyState
      [(some msgA, 0, 0), (some msgA, 0, 0),
       (some msgA, mkRat 1 2, mkRat 1 2)]).err = none :=
  c1_three_identical_messages_one_echo emptyState "1" 1 msgA msgA msgA
    0 0 0 0 (mkRat 1 2) (mkRat 1 2) (by decide) rfl rfl (by decide)
    (by decide) rfl (by decide) (by decide) rfl (by decide) (by decide) rfl
    (by decide) (by decide) (by decide) (by decide)

/-! ## Claim C2 -/

/-- The text a run item contributes: the extracted text for a present
message, `""` for a `None` event. -/
def itemText : Item → String
  | (none, _, _) => ""
  | (some m, _, _) => extractText m

theorem execute_distinct_step (cfg : Config) (st : HState) (m : MaiMessages)
    (d1 d2 : ℚ)
    (hdis : ∀ g s, s ∈ st.chat_history g → extractText m ≠ s) :
    (execute cfg st (some m) d1 d2).emits = [] ∧
    (execute cfg st (some m) d1 d2).err = none ∧
    ∀ g s, s ∈ (execute cfg st (some m) d1 d2).state.chat_history g →
      s ∈ st.chat_history g ∨ s = extractText m := by
  by_cases hp : passesFilters (some m) = true
  · have htr : isRepeatTrigger (st.chat_history (extractGroupId m))
        (extractText m) = false := by
      cases hb : isRepeatTrigger (st.chat_history (extractGroupId m))
          (extractText m) with
      | false => rfl
      | true => exact absurd rfl (hdis _ _ (isRepeatTrigger_mem hb))
    rw [execute_no_trigger cfg st m d1 d2 hp htr]
    refine ⟨rfl, rfl, fun g s hs => ?_⟩
    simp only [HState.withHistory] at hs
    by_cases hg : g = extractGroupId m
    · rw [if_pos hg] at hs
      rcases mem_dequeAppend3 hs with h | h
      · exact Or.inl (hg ▸ h)
      · exact Or.inr h
    · rw [if_neg hg] at hs
      exact Or.inl hs
  · rcases execute_not_pass cfg st m d1 d2 (Bool.not_eq_true _ ▸ hp) with
      hc | ⟨_, _, hc⟩ <;> rw [hc] <;>
      exact ⟨rfl, rfl, fun g s hs => Or.inl hs⟩

theorem runMessages_distinct (cfg : Config) :
    ∀ (items : List Item) (st : HState),
      (∀ it ∈ items, ∀ g s, s ∈ st.chat_history g → itemText it ≠ s) →
      (items.map itemText).Pairwise (· ≠ ·) →
      (runMessages cfg st items).emits = [] := by
  intro items
  induction items with
  | nil => intro st _ _; rfl
  | cons it rest ih =>
    intro st hdis hpw
    simp only [List.map_cons, List.pairwise_cons] at hpw
    obtain ⟨m, d1, d2⟩ := it
    cases m with
    | none =>
      rw [runMessages_cons_ok cfg st none d1 d2 rest st []
        (execute_none cfg st d1 d2)]
      show [] ++ (runMessages cfg st rest).emits = []
      rw [List.nil_append]
      exact ih st (fun it' hit' => hdis it' (List.mem_cons_of_mem _ hit'))
        hpw.2
    | some mm =>
      have hd : ∀ g s, s ∈ st.chat_history g → extractText mm ≠ s :=
        fun g s hs => hdis (some mm, d1, d2) (List.mem_cons_self _ _) g s hs
      obtain ⟨he, herr, horig⟩ := execute_distinct_step cfg st mm d1 d2 hd
      rw [runMessages_cons, herr]
      show (execute cfg st (some mm) d1 d2).emits ++
        (runMessages cfg (execute cfg st (some mm) d1 d2).state rest).emits
        = []
      rw [he, List.nil_append]
      refine ih _ (fun it' hit' g s hs => ?_) hpw.2
      rcases horig g s hs with h | h
      · exact hdis it' (List.mem_cons_of_mem _ hit') g s h
      · subst h
        exact (hpw.1 (itemText it')
          (List.mem_map_of_mem itemText hit')).symm

/-- C2: (1) the repeat trigger — evaluated on the group's window BEFORE the
new text is appended — is true iff the window already holds at least 2
entries and both of its last two entries equal the incoming text (i.e. the
window ends in `[text, text]`); (2) an invocation can emit an echo only if
that pre-append trigger is true; (3) a text distinct from everything in
the windows never triggers; (4) for any sequence of messages with
pairwise-distinct texts, from the fresh process state, no echo is ever
emitted. -/
theorem c2_trigger_iff_and_distinct_no_echo :
    (∀ (h : List String) (t : String),
      isRepeatTrigger h t = true ↔
        2 ≤ h.length ∧ ∃ pre, h = pre ++ [t, t]) ∧
    (∀ (cfg : Config) (st : HState) (m : MaiMessages) (d1 d2 : ℚ),
      (execute cfg st (some m) d1 d2).emits ≠ [] →
      isRepeatTrigger (st.chat_history (extractGroupId m))
        (extractText m) = true) ∧
    (∀ (st : HState) (m : MaiMessages),
      (∀ g s, s ∈ st.chat_history g → extractText m ≠ s) →
      isRepeatTrigger (st.chat_history (extractGroupId m))
        (extractText m) = false) ∧
    (∀ (cfg : Config) (items : List Item),
      (items.map itemText).Pairwise (· ≠ ·) →
      (runMessages cfg emptyState items).emits = []) := by
  refine ⟨isRepeatTrigger_iff, ?_, ?_, ?_⟩
  · intro cfg st m d1 d2 hne
    by_cases hp : passesFilters (some m) = true
    · rcases execute_pass_cases cfg st m d1 d2 hp with
        hc | ⟨gid, _, htr, _, hc⟩ | ⟨_, hc⟩
      · rw [hc] at hne
        exact absurd rfl hne
      · exact htr
      · rw [hc] at hne
        exact absurd rfl hne
    · rcases execute_not_pass cfg st m d1 d2 (Bool.not_eq_true _ ▸ hp) with
        hc | ⟨_, _, hc⟩ <;> rw [hc] at hne <;> exact absurd rfl hne
  · intro st m hdis
    cases hb : isRepeatTrigger (st.chat_history (extractGroupId m))
        (extractText m) with
    | false => rfl
    | true => exact absurd rfl (hdis _ _ (isRepeatTrigger_mem hb))
  · intro cfg items hpw
    exact runMessages_distinct cfg items emptyState
      (fun it _ g s hs => absurd hs (List.not_mem_nil s)) hpw

/-- C2 witness: a concrete all-distinct sequence emits nothing, and the
trigger characterization at a concrete window. -/
theorem c2_trigger_iff_and_distinct_no_echo_witness :
    (runMessages ⟨1, 0⟩ emptyState
      [(some msgA, 0, 0), (some (mkMsg "1" "B" false), 0, 0),
       (some (mkMsg "1" "C" false), 0, 0)]).emits = [] ∧
    isRepeatTrigger ["x", "A", "A"] "A" = true :=
  ⟨c2_trigger_iff_and_distinct_no_echo.2.2.2 ⟨1, 0⟩
    [(some msgA, 0, 0), (some (mkMsg "1" "B" false), 0, 0),
     (some (mkMsg "1" "C" false), 0, 0)] (by decide),
   (c2_trigger_iff_and_distinct_no_echo.1 ["x", "A", "A"] "A").mpr
     ⟨by decide, ["x"], rfl⟩⟩

/-! ## Claim C5 -/

theorem mem_of_getElem?_some {α : Type} {l : List α} {n : ℕ} {a : α}
    (h : l[n]? = some a) : a ∈ l := by
  obtain ⟨hlt, rfl⟩ := List.getElem?_eq_some.mp h
  exact List.getElem_mem hlt

theorem execute_guard_step (cfg : Config) (st : HState)
    (msg : Option MaiMessages) (d1 d2 : ℚ) (t : String)
    (hlast : st.last_repeated_message = some t)
    (hself : ∀ m, msg = some m → m.is_self = true → extractText m ≠ t) :
    (∀ e ∈ (execute cfg st msg d1 d2).emits, e.source ≠ t) ∧
    ((execute cfg st msg d1 d2).state.last_repeated_message = some t ∨
     ∃ e ∈ (execute cfg st msg d1 d2).emits, e.source ≠ t) := by
  cases msg with
  | none => exact ⟨fun e he => absurd he (List.not_mem_nil e), Or.inl hlast⟩
  | some m =>
    by_cases hp : passesFilters (some m) = true
    · rcases execute_pass_cases cfg st m d1 d2 hp with
        hc | ⟨gid, hgid, htr, hl, hc⟩ | ⟨hgid, hc⟩
      · rw [hc]
        exact ⟨fun e he => absurd he (List.not_mem_nil e), Or.inl hlast⟩
      · rw [hc]
        have hne : extractText m ≠ t := by
          intro habs
          exact hl (hlast.trans (by rw [habs]))
        refine ⟨fun e he => ?_,
          Or.inr ⟨⟨gid, cleanMentions (extractText m), extractText m⟩,
            List.mem_singleton_self _, hne⟩⟩
        simp only [List.mem_singleton] at he
        subst he
        exact hne
      · rw [hc]
        exact ⟨fun e he => absurd he (List.not_mem_nil e), Or.inl hlast⟩
    · rcases execute_not_pass cfg st m d1 d2 (Bool.not_eq_true _ ▸ hp) with
        hc | ⟨hsf, hcl, hc⟩
      · rw [hc]
        exact ⟨fun e he => absurd he (List.not_mem_nil e), Or.inl hlast⟩
      · exfalso
        exact hself m rfl hsf (Option.some.inj (hcl.symm.trans hlast))

/-- C5 (amended): while `last_repeated_message` holds `t` and no bot
self-message with text `t` is processed, no echo of `t` can be emitted;
when an echo of `t` does appear later in such a run, it must have been
UNBLOCKED by an earlier echo with a different text overwriting the guard —
i.e. every emission of `t` is preceded in the run's emission list by an
emission with source ≠ `t`.  (A self-message with text `t`, excluded here,
is the other unblocking mechanism.) -/
theorem c5_guard_blocks_reecho (cfg : Config) (t : String) :
    ∀ (items : List Item) (st : HState),
      st.last_repeated_message = some t →
      (∀ it ∈ items, ∀ m, it.1 = some m → m.is_self = true →
        extractText m ≠ t) →
      ∀ (n : ℕ) (e : Emit), (runMessages cfg st items).emits[n]? = some e →
        e.source = t →
        ∃ (m' : ℕ) (e' : Emit), m' < n ∧
          (runMessages cfg st items).emits[m']? = some e' ∧
          e'.source ≠ t := by
  intro items
  induction items with
  | nil =>
    intro st _ _ n e hn _
    rw [runMessages_nil] at hn
    simp at hn
  | cons it rest ih =>
    intro st hlast hself n e hn hes
    obtain ⟨m, d1, d2⟩ := it
    obtain ⟨hner, hinv⟩ := execute_guard_step cfg st m d1 d2 t hlast
      (fun mm hmm hsf => hself (m, d1, d2) (List.mem_cons_self _ _) mm hmm
        hsf)
    cases herr : (execute cfg st m d1 d2).err with
    | some err =>
      rw [runMessages_cons] at hn ⊢
      rw [herr] at hn ⊢
      exact absurd hes (hner e (mem_of_getElem?_some hn))
    | none =>
      rw [runMessages_cons] at hn ⊢
      rw [herr] at hn ⊢
      by_cases hlt : n < (execute cfg st m d1 d2).emits.length
      · rw [show ((⟨(runMessages cfg (execute cfg st m d1 d2).state
            rest).state,
            (execute cfg st m d1 d2).emits ++
              (runMessages cfg (execute cfg st m d1 d2).state rest).emits,
            (runMessages cfg (execute cfg st m d1 d2).state rest).err⟩ :
              RunOut).emits) =
            (execute cfg st m d1 d2).emits ++
              (runMessages cfg (execute cfg st m d1 d2).state rest).emits
            from rfl] at hn
        rw [List.getElem?_append_left hlt] at hn
        exact absurd hes (hner e (mem_of_getElem?_some hn))
      · push_neg at hlt
        rw [show ((⟨(runMessages cfg (execute cfg st m d1 d2).state
            rest).state,
            (execute cfg st m d1 d2).emits ++
              (runMessages cfg (execute cfg st m d1 d2).state rest).emits,
            (runMessages cfg (execute cfg st m d1 d2).state rest).err⟩ :
              RunOut).emits) =
            (execute cfg st m d1 d2).emits ++
              (runMessages cfg (execute cfg st m d1 d2).state rest).emits
            from rfl] at hn ⊢
        rw [List.getElem?_append_right hlt] at hn
        rcases hinv with hl' | ⟨e₀, he₀, hne₀⟩
        · obtain ⟨m', e', hm', hm'get, hm'ne⟩ := ih
            (execute cfg st m d1 d2).state hl'
            (fun it' hit' => hself it' (List.mem_cons_of_mem _ hit'))
            (n - (execute cfg st m d1 d2).emits.length) e hn hes
          refine ⟨(execute cfg st m d1 d2).emits.length + m', e',
            by omega, ?_, hm'ne⟩
          rw [List.getElem?_append_right (by omega)]
          rw [show (execute cfg st m d1 d2).emits.length + m' -
            (execute cfg st m d1 d2).emits.length = m' from by omega]
          exact hm'get
        · obtain ⟨m₀, hm₀⟩ := List.getElem?_of_mem he₀
          have hm₀lt : m₀ < (execute cfg st m d1 d2).emits.length :=
            (List.getElem?_eq_some.mp hm₀).1
          refine ⟨m₀, e₀, by omega, ?_, hne₀⟩
          rw [List.getElem?_append_left hm₀lt]
          exact hm₀

/-- A plain user message: group `"1"`, text `"B"`, not from the bot. -/
def msgB : MaiMessages := mkMsg "1" "B" false

/-- The nine-message run `A,A,A,B,B,B,A,A,A` in group `"1"`, all from
other users, with draws `(0.5, 0.5)` each (both gates pass on every
trigger). -/
def items9 : List Item :=
  [(some msgA, mkRat 1 2, mkRat 1 2), (some msgA, mkRat 1 2, mkRat 1 2),
   (some msgA, mkRat 1 2, mkRat 1 2), (some msgB, mkRat 1 2, mkRat 1 2),
   (some msgB, mkRat 1 2, mkRat 1 2), (some msgB, mkRat 1 2, mkRat 1 2),
   (some msgA, mkRat 1 2, mkRat 1 2), (some msgA, mkRat 1 2, mkRat 1 2),
   (some msgA, mkRat 1 2, mkRat 1 2)]

/-- C5 counterexample: after `"A"` is echoed, an intervening `"B"` streak's
echo overwrites the process-wide guard, and a second `"A"` streak IS
re-echoed — with no bot self-message anywhere in the run.  This refutes
"no later streak of three consecutive A messages ever re-echoes A ...
unless a bot self-message whose text equals A has been processed in
between". -/
theorem c5_interleaved_other_echo_counterexample :
    (runMessages ⟨1, 0⟩ emptyState items9).emits =
      [⟨1, "A", "A"⟩, ⟨1, "B", "B"⟩, ⟨1, "A", "A"⟩] ∧
    items9.all (fun it => match it.1 with
      | some m => !m.is_self
      | none => true) = true := by
  decide

/-- Handler state with all windows empty and the guard holding `"A"`. -/
def stGuardA : HState := ⟨fun _ => [], some "A"⟩

/-- C5 witness: from a state whose guard holds `"A"`, in a self-free run
`B,B,B,A,A,A` the echo of `"A"` (emission index 1) is preceded by the
different echo `"B"` (emission index 0). -/
theorem c5_guard_blocks_reecho_witness :
    ∃ (m' : ℕ) (e' : Emit), m' < 1 ∧
      (runMessages ⟨1, 0⟩ stGuardA
        [(some msgB, mkRat 1 2, mkRat 1 2),
         (some msgB, mkRat 1 2, mkRat 1 2),
         (some msgB, mkRat 1 2, mkRat 1 2),
         (some msgA, mkRat 1 2, mkRat 1 2),
         (some msgA, mkRat 1 2, mkRat 1 2),
         (some msgA, mkRat 1 2, mkRat 1 2)]).emits[m']? = some e' ∧
      e'.source ≠ "A" :=
  c5_guard_blocks_reecho ⟨1, 0⟩ "A"
    [(some msgB, mkRat 1 2, mkRat 1 2), (some msgB, mkRat 1 2, mkRat 1 2),
     (some msgB, mkRat 1 2, mkRat 1 2), (some msgA, mkRat 1 2, mkRat 1 2),
     (some msgA, mkRat 1 2, mkRat 1 2), (some msgA, mkRat 1 2, mkRat 1 2)]
    stGuardA rfl (by decide) 1 ⟨1, "A", "A"⟩ (by decide) rfl
